import Mathlib

/-!
Verification of the bank-statement extractor of `src/index.js`
(`extractBankStatementData`, lines 27-81).

The extractor normalizes each line (collapse whitespace runs to a single
space, trim), classifies it (date prefix / amount / type / continuation)
and folds a one-draft accumulator over the lines, flushing once at the end.
The embedding below mirrors the JavaScript statement by statement.
-/

namespace ExpenseTracker

/-- The whitespace class of the JavaScript regex `\s` restricted to the
ASCII characters that can occur here: space, tab, newline, carriage
return, vertical tab and form feed. -/
def isWs (c : Char) : Bool :=
  c = ' ' || c = '\t' || c = '\n' || c = '\r' || c = '\x0b' || c = '\x0c'

/-- Drop leading and trailing whitespace characters, as `String.prototype.trim`. -/
def trimChars (l : List Char) : List Char :=
  ((l.dropWhile isWs).reverse.dropWhile isWs).reverse

/-- Collapse every run of consecutive spaces into a single space. -/
def squashSpaces : List Char → List Char
  | [] => []
  | [c] => [c]
  | c :: d :: cs =>
    if c = ' ' && d = ' ' then squashSpaces (d :: cs)
    else c :: squashSpaces (d :: cs)

/-- Embeds `line.replace(/\s+/g, ' ').trim()` (src/index.js line 40): map each
whitespace character to a space, collapse runs, trim the ends. -/
def normalizeLine (s : String) : String :=
  String.mk (trimChars (squashSpaces (s.data.map fun c => if isWs c then ' ' else c)))

/-- Embeds `datePattern = /^\d{2}-\d{2}-\d{4}/` (line 41): the line starts with
two digits, a dash, two digits, a dash, four digits. -/
def matchesDateStart : List Char → Bool
  | d1 :: d2 :: h1 :: d3 :: d4 :: h2 :: y1 :: y2 :: y3 :: y4 :: _ =>
    d1.isDigit && d2.isDigit && h1 = '-' && d3.isDigit && d4.isDigit &&
      h2 = '-' && y1.isDigit && y2.isDigit && y3.isDigit && y4.isDigit
  | _ => false

/-- Embeds `amountPattern = /^\d+(\.\d{2})?$/` (line 42): the whole line is one
or more digits, optionally followed by a dot and exactly two digits. -/
def matchesAmount (l : List Char) : Bool :=
  let ds := l.takeWhile Char.isDigit
  let rest := l.dropWhile Char.isDigit
  ds ≠ [] &&
    (match rest with
     | [] => true
     | ['.', a, b] => a.isDigit && b.isDigit
     | _ => false)

/-- Embeds `typePattern = /^(DR|CR)$/` (line 43): the whole line is `DR` or `CR`. -/
def matchesType (l : List Char) : Bool :=
  decide (l = ['D', 'R']) || decide (l = ['C', 'R'])

/-- The transaction record built by the accumulator (line 36). -/
structure Transaction where
  date : String
  description : String
  amount : String
  type : String
deriving DecidableEq, Repr

/-- The fresh record `{ Date: '', Description: '', Amount: '', Type: '' }`. -/
def emptyTransaction : Transaction :=
  { date := "", description := "", amount := "", type := "" }

/-- The extractor's mutable state: `currentTransaction`, `inTransaction`
and the `transactions` output array (lines 35-37). -/
structure AccState where
  current : Transaction
  inTransaction : Bool
  transactions : List Transaction
deriving DecidableEq, Repr

/-- The state before the `forEach` loop starts. -/
def initState : AccState :=
  { current := emptyTransaction, inTransaction := false, transactions := [] }

/-- One iteration of the `lines.forEach` body (lines 39-70), as a pure
state transformer. -/
def processLine (st : AccState) (line : String) : AccState :=
  let normalized := normalizeLine line
  if matchesDateStart normalized.data then
    let ts :=
      if st.inTransaction && st.current.type = "DR" then
        st.transactions ++ [st.current]
      else st.transactions
    { current :=
        { date := String.mk (normalized.data.take 10)
          description := String.mk (trimChars (normalized.data.drop 10))
          amount := ""
          type := "" }
      inTransaction := true
      transactions := ts }
  else if matchesAmount normalized.data then
    { st with current := { st.current with amount := normalized } }
  else if matchesType normalized.data then
    let c := { st.current with type := normalized }
    let ts := if c.type = "DR" then st.transactions ++ [c] else st.transactions
    { current := emptyTransaction, inTransaction := false, transactions := ts }
  else
    if st.inTransaction then
      { st with current :=
          { st.current with
              description := st.current.description ++ " " ++ normalized } }
    else st

/-- Run the loop over all lines from the initial state. -/
def runLines (lines : List String) : AccState :=
  lines.foldl processLine initState

/-- The end-of-input flush (lines 72-74). -/
def flush (st : AccState) : List Transaction :=
  if st.inTransaction && st.current.type = "DR" then
    st.transactions ++ [st.current]
  else st.transactions

/-- The whole loop plus flush on an explicit line sequence. -/
def extractTransactions (lines : List String) : List Transaction :=
  flush (runLines lines)

/-- Embeds `text.split('\n')` on a character list: split at every newline,
keeping empty segments, never returning an empty list. -/
def splitLines : List Char → List (List Char)
  | [] => [[]]
  | c :: cs =>
    match splitLines cs with
    | [] => [[]]
    | l :: ls => if c = '\n' then [] :: l :: ls else (c :: l) :: ls

/-- Embeds `data.text.trim()` followed by `split('\n')` and the loop (lines
32-74): the extractor on a whole text. -/
def extractFromText (text : String) : List Transaction :=
  extractTransactions ((splitLines (trimChars text.data)).map String.mk)

/-- The `try`/`catch` around the text-extraction collaborator (lines
30-80): a failing collaborator result is rethrown unchanged, a successful
one is processed. -/
def extractBankStatementData {ε : Type} (r : Except ε String) :
    Except ε (List Transaction) :=
  match r with
  | Except.error e => Except.error e
  | Except.ok text => Except.ok (extractFromText text)

/-- Invariant: every transaction already in the output array has type `"DR"`. -/
def TypesDR (st : AccState) : Prop :=
  ∀ t ∈ st.transactions, t.type = "DR"

/-- Invariant: while a draft is open, its type field is empty. -/
def OpenTypeEmpty (st : AccState) : Prop :=
  st.inTransaction = true → st.current.type = ""

/-- A 10-character string whose characters fit the DD-MM-YYYY pattern. -/
def DateShape (d : String) : Prop :=
  d.length = 10 ∧ matchesDateStart d.data = true

/-- A date field as it can appear in the output: empty or date-shaped. -/
def DateOk (d : String) : Prop :=
  d = "" ∨ DateShape d

/-- Invariant tying the date fields of the output, the open draft and the
idle draft to their origins. -/
def DatesOk (st : AccState) : Prop :=
  (∀ t ∈ st.transactions, DateOk t.date) ∧
  (st.inTransaction = true → DateShape st.current.date) ∧
  (st.inTransaction = false → st.current.date = "")

/-! ### Branch lemmas: what one loop iteration does in each of the four
classification branches. -/

theorem spec_example_debit :
    extractFromText "01-02-2023 GROCERY STORE\n45.50\nDR" =
      [{ date := "01-02-2023", description := "GROCERY STORE",
         amount := "45.50", type := "DR" }] := by decide

theorem spec_example_credit :
    extractFromText "01-02-2023 SALARY\n1000.00\nCR" = [] := by decide

theorem processLine_date (st : AccState) (line : String)
    (hd : matchesDateStart (normalizeLine line).data = true) :
    processLine st line =
      { current :=
          { date := String.mk ((normalizeLine line).data.take 10)
            description := String.mk (trimChars ((normalizeLine line).data.drop 10))
            amount := ""
            type := "" }
        inTransaction := true
        transactions :=
          if st.inTransaction && st.current.type = "DR" then
            st.transactions ++ [st.current]
          else st.transactions } := by
  simp only [processLine, hd, if_true]

theorem processLine_amount (st : AccState) (line : String)
    (hd : matchesDateStart (normalizeLine line).data = false)
    (ha : matchesAmount (normalizeLine line).data = true) :
    processLine st line =
      { st with current := { st.current with amount := normalizeLine line } } := by
  simp only [processLine, hd, ha, Bool.false_eq_true, if_false, if_true]

theorem processLine_typeTok (st : AccState) (line : String)
    (hd : matchesDateStart (normalizeLine line).data = false)
    (ha : matchesAmount (normalizeLine line).data = false)
    (ht : matchesType (normalizeLine line).data = true) :
    processLine st line =
      { current := emptyTransaction
        inTransaction := false
        transactions :=
          if normalizeLine line = "DR" then
            st.transactions ++ [{ st.current with type := normalizeLine line }]
          else st.transactions } := by
  simp only [processLine, hd, ha, ht, Bool.false_eq_true, if_false, if_true]

theorem processLine_cont_open (st : AccState) (line : String)
    (hd : matchesDateStart (normalizeLine line).data = false)
    (ha : matchesAmount (normalizeLine line).data = false)
    (ht : matchesType (normalizeLine line).data = false)
    (hin : st.inTransaction = true) :
    processLine st line =
      { st with current :=
          { st.current with
              description := st.current.description ++ " " ++ normalizeLine line } } := by
  simp only [processLine, hd, ha, ht, hin, Bool.false_eq_true, if_false, if_true]

theorem processLine_cont_idle (st : AccState) (line : String)
    (hd : matchesDateStart (normalizeLine line).data = false)
    (ha : matchesAmount (normalizeLine line).data = false)
    (ht : matchesType (normalizeLine line).data = false)
    (hin : st.inTransaction = false) :
    processLine st line = st := by
  simp only [processLine, hd, ha, ht, hin, Bool.false_eq_true, if_false]

/-! ### Invariant machinery over the fold. -/

theorem foldl_processLine_inv (P : AccState → Prop)
    (hstep : ∀ st line, P st → P (processLine st line)) :
    ∀ (lines : List String) (st : AccState), P st → P (lines.foldl processLine st)
  | [], _, h => h
  | l :: ls, st, h =>
    foldl_processLine_inv P hstep ls (processLine st l) (hstep st l h)

theorem runLines_inv (P : AccState → Prop)
    (hstep : ∀ st line, P st → P (processLine st line))
    (hinit : P initState) (lines : List String) : P (runLines lines) :=
  foldl_processLine_inv P hstep lines initState hinit

theorem and_eq_true_iff {a b : Bool} : (a && b) = true ↔ a = true ∧ b = true := by
  cases a <;> cases b <;> simp

/-! ### Invariant: every transaction in the output array has type `"DR"`. -/

theorem step_typesDR (st : AccState) (line : String) (h : TypesDR st) :
    TypesDR (processLine st line) := by
  cases hd : matchesDateStart (normalizeLine line).data with
  | true =>
    rw [processLine_date st line hd]
    intro t ht
    dsimp only at ht
    by_cases hc : st.inTransaction && st.current.type = "DR"
    · rw [if_pos hc] at ht
      rcases List.mem_append.1 ht with h1 | h1
      · exact h t h1
      · rw [List.mem_singleton.1 h1]
        exact of_decide_eq_true (and_eq_true_iff.1 hc).2
    · rw [if_neg hc] at ht
      exact h t ht
  | false =>
    cases ha : matchesAmount (normalizeLine line).data with
    | true =>
      rw [processLine_amount st line hd ha]
      exact h
    | false =>
      cases htp : matchesType (normalizeLine line).data with
      | true =>
        rw [processLine_typeTok st line hd ha htp]
        intro t hm
        dsimp only at hm
        by_cases hDR : normalizeLine line = "DR"
        · rw [if_pos hDR] at hm
          rcases List.mem_append.1 hm with h1 | h1
          · exact h t h1
          · rw [List.mem_singleton.1 h1]
            exact hDR
        · rw [if_neg hDR] at hm
          exact h t hm
      | false =>
        cases hin : st.inTransaction with
        | true =>
          rw [processLine_cont_open st line hd ha htp hin]
          exact h
        | false =>
          rw [processLine_cont_idle st line hd ha htp hin]
          exact h

theorem flush_typesDR (st : AccState) (h : TypesDR st) :
    ∀ t ∈ flush st, t.type = "DR" := by
  intro t ht
  unfold flush at ht
  by_cases hc : st.inTransaction && st.current.type = "DR"
  · rw [if_pos hc] at ht
    rcases List.mem_append.1 ht with h1 | h1
    · exact h t h1
    · rw [List.mem_singleton.1 h1]
      exact of_decide_eq_true (and_eq_true_iff.1 hc).2
  · rw [if_neg hc] at ht
    exact h t ht

/-! ### Invariant: while a draft is open, its type field is empty. -/

theorem step_openTypeEmpty (st : AccState) (line : String) (h : OpenTypeEmpty st) :
    OpenTypeEmpty (processLine st line) := by
  cases hd : matchesDateStart (normalizeLine line).data with
  | true =>
    rw [processLine_date st line hd]
    intro _
    rfl
  | false =>
    cases ha : matchesAmount (normalizeLine line).data with
    | true =>
      rw [processLine_amount st line hd ha]
      exact h
    | false =>
      cases htp : matchesType (normalizeLine line).data with
      | true =>
        rw [processLine_typeTok st line hd ha htp]
        intro hfalse
        exact Bool.noConfusion hfalse
      | false =>
        cases hin : st.inTransaction with
        | true =>
          rw [processLine_cont_open st line hd ha htp hin]
          intro _
          exact h hin
        | false =>
          rw [processLine_cont_idle st line hd ha htp hin]
          exact h

theorem flush_eq_of_openTypeEmpty (st : AccState) (h : OpenTypeEmpty st) :
    flush st = st.transactions := by
  unfold flush
  by_cases hc : st.inTransaction && st.current.type = "DR"
  · have h1 := and_eq_true_iff.1 hc
    have h2 := h h1.1
    have h3 := of_decide_eq_true h1.2
    rw [h2] at h3
    exact absurd h3 (by decide)
  · exact if_neg hc

theorem runLines_openTypeEmpty (lines : List String) :
    OpenTypeEmpty (runLines lines) :=
  runLines_inv OpenTypeEmpty step_openTypeEmpty
    (fun hfalse => Bool.noConfusion hfalse) lines

/-! ### Invariant: dates of output transactions are empty or 10-character
date-shaped tokens. -/

theorem matchesDateStart_take10 (l : List Char) (h : matchesDateStart l = true) :
    (l.take 10).length = 10 ∧ matchesDateStart (l.take 10) = true := by
  match l, h with
  | c0 :: c1 :: c2 :: c3 :: c4 :: c5 :: c6 :: c7 :: c8 :: c9 :: rest, h => exact ⟨rfl, h⟩
  | [], h => exact Bool.noConfusion h
  | [_], h => exact Bool.noConfusion h
  | [_, _], h => exact Bool.noConfusion h
  | [_, _, _], h => exact Bool.noConfusion h
  | [_, _, _, _], h => exact Bool.noConfusion h
  | [_, _, _, _, _], h => exact Bool.noConfusion h
  | [_, _, _, _, _, _], h => exact Bool.noConfusion h
  | [_, _, _, _, _, _, _], h => exact Bool.noConfusion h
  | [_, _, _, _, _, _, _, _], h => exact Bool.noConfusion h
  | [_, _, _, _, _, _, _, _, _], h => exact Bool.noConfusion h

theorem step_datesOk (st : AccState) (line : String) (h : DatesOk st) :
    DatesOk (processLine st line) := by
  obtain ⟨hall, hopen, hidle⟩ := h
  cases hd : matchesDateStart (normalizeLine line).data with
  | true =>
    rw [processLine_date st line hd]
    refine ⟨?_, ?_, ?_⟩
    · intro t ht
      dsimp only at ht
      by_cases hc : st.inTransaction && st.current.type = "DR"
      · rw [if_pos hc] at ht
        rcases List.mem_append.1 ht with h1 | h1
        · exact hall t h1
        · rw [List.mem_singleton.1 h1]
          exact Or.inr (hopen (and_eq_true_iff.1 hc).1)
      · rw [if_neg hc] at ht
        exact hall t ht
    · intro _
      exact matchesDateStart_take10 _ hd
    · intro hfalse
      exact Bool.noConfusion hfalse
  | false =>
    cases ha : matchesAmount (normalizeLine line).data with
    | true =>
      rw [processLine_amount st line hd ha]
      exact ⟨hall, hopen, hidle⟩
    | false =>
      cases htp : matchesType (normalizeLine line).data with
      | true =>
        rw [processLine_typeTok st line hd ha htp]
        refine ⟨?_, ?_, ?_⟩
        · intro t ht
          dsimp only at ht
          by_cases hDR : normalizeLine line = "DR"
          · rw [if_pos hDR] at ht
            rcases List.mem_append.1 ht with h1 | h1
            · exact hall t h1
            · rw [List.mem_singleton.1 h1]
              cases hin : st.inTransaction with
              | true => exact Or.inr (hopen hin)
              | false => exact Or.inl (hidle hin)
          · rw [if_neg hDR] at ht
            exact hall t ht
        · intro hfalse
          exact Bool.noConfusion hfalse
        · intro _
          rfl
      | false =>
        cases hin : st.inTransaction with
        | true =>
          rw [processLine_cont_open st line hd ha htp hin]
          refine ⟨hall, fun _ => hopen hin, ?_⟩
          intro hfalse
          rw [hin] at hfalse
          exact Bool.noConfusion hfalse
        | false =>
          rw [processLine_cont_idle st line hd ha htp hin]
          exact ⟨hall, hopen, hidle⟩

theorem flush_datesOk (st : AccState) (h : DatesOk st) :
    ∀ t ∈ flush st, DateOk t.date := by
  intro t ht
  unfold flush at ht
  by_cases hc : st.inTransaction && st.current.type = "DR"
  · rw [if_pos hc] at ht
    rcases List.mem_append.1 ht with h1 | h1
    · exact h.1 t h1
    · rw [List.mem_singleton.1 h1]
      exact Or.inr (h.2.1 (and_eq_true_iff.1 hc).1)
  · rw [if_neg hc] at ht
    exact h.1 t ht

theorem str_append_empty (s : String) : s ++ "" = s := by
  cases s with
  | mk l =>
    show String.mk (l ++ []) = String.mk l
    rw [List.append_nil]

/-! ### Claim theorems. -/

/-- C1, counterexample: a `DR` line processed from the initial (Idle) state
is not a no-op — it emits a transaction with all-empty fields except type. -/
theorem typeLine_idle_noop_counterexample :
    processLine initState "DR" ≠ initState ∧
    (processLine initState "DR").transactions =
      [{ date := "", description := "", amount := "", type := "DR" }] := by
  constructor
  · decide
  · decide

/-- C1 (amended): a TypeLine processed while no draft is open writes the
token into the idle draft's type; a `DR` token then emits that idle draft
(empty date and description, lingering amount); in either case the draft is
reset and the machine stays Idle. -/
theorem typeLine_idle_behavior (st : AccState) (line : String)
    (_hidle : st.inTransaction = false)
    (h : normalizeLine line = "DR" ∨ normalizeLine line = "CR") :
    processLine st line =
      { current := emptyTransaction
        inTransaction := false
        transactions :=
          if normalizeLine line = "DR" then
            st.transactions ++ [{ st.current with type := normalizeLine line }]
          else st.transactions } := by
  rcases h with h | h <;>
    exact processLine_typeTok st line (by rw [h]; rfl) (by rw [h]; rfl) (by rw [h]; rfl)

/-- Witness for C1 (amended) at the initial state and the line `DR`. -/
theorem typeLine_idle_behavior_witness :
    processLine initState "DR" =
      { current := emptyTransaction
        inTransaction := false
        transactions :=
          if normalizeLine "DR" = "DR" then
            initState.transactions ++ [{ initState.current with type := normalizeLine "DR" }]
          else initState.transactions } :=
  typeLine_idle_behavior initState "DR" rfl (Or.inl rfl)

/-- C2, counterexample: the text `DR` yields a transaction whose date is
the empty string. -/
theorem output_date_nonempty_counterexample :
    extractFromText "DR" =
      [{ date := "", description := "", amount := "", type := "DR" }] ∧
    ({ date := "", description := "", amount := "", type := "DR" } : Transaction).date
      = "" := by
  constructor
  · decide
  · rfl

/-- C2 (amended): every transaction in the extractor's output has a date
that is either empty (emitted by a `DR` TypeLine with no open draft) or a
10-character token starting with the DD-MM-YYYY shape. -/
theorem output_date_shape (text : String) (t : Transaction)
    (ht : t ∈ extractFromText text) :
    t.date = "" ∨ (t.date.length = 10 ∧ matchesDateStart t.date.data = true) := by
  have hinv : DatesOk (runLines ((splitLines (trimChars text.data)).map String.mk)) :=
    runLines_inv DatesOk step_datesOk
      (by refine ⟨?_, ?_, ?_⟩
          · intro t h
            exact absurd h (List.not_mem_nil t)
          · intro hf
            exact Bool.noConfusion hf
          · intro _
            rfl) _
  exact flush_datesOk _ hinv t ht

/-- Witness for C2 (amended) on the text `DR`. -/
theorem output_date_shape_witness :
    ({ date := "", description := "", amount := "", type := "DR" } : Transaction).date = "" ∨
    (({ date := "", description := "", amount := "", type := "DR" } : Transaction).date.length = 10 ∧
      matchesDateStart
        ({ date := "", description := "", amount := "", type := "DR" } : Transaction).date.data
        = true) :=
  output_date_shape "DR" _ (by decide)

/-- C3, counterexample: an AmountLine while Idle is buffered into the idle
draft, so the output differs from the run without that line, and the state
is mutated. -/
theorem amountLine_idle_noop_counterexample :
    extractTransactions ["35.00", "DR"] ≠ extractTransactions ["DR"] ∧
    processLine initState "35.00" ≠ initState := by
  constructor
  · decide
  · decide

/-- C3 (amended): an AmountLine processed while no draft is open overwrites
the idle draft's amount and changes nothing else; the token is dropped only
if a DateLine (which rebuilds the draft) arrives before a `DR` TypeLine. -/
theorem amountLine_idle_overwrites (st : AccState) (line : String)
    (_hidle : st.inTransaction = false)
    (hd : matchesDateStart (normalizeLine line).data = false)
    (ha : matchesAmount (normalizeLine line).data = true) :
    processLine st line =
      { st with current := { st.current with amount := normalizeLine line } } :=
  processLine_amount st line hd ha

/-- Witness for C3 (amended) at the initial state and the line `35.00`. -/
theorem amountLine_idle_overwrites_witness :
    processLine initState "35.00" =
      { initState with current :=
          { initState.current with amount := normalizeLine "35.00" } } :=
  amountLine_idle_overwrites initState "35.00" rfl rfl rfl

/-- C4: every transaction the extractor outputs has type `"DR"`; no CR or
empty-typed transaction is ever emitted. -/
theorem allOutputs_type_DR (text : String) (t : Transaction)
    (ht : t ∈ extractFromText text) : t.type = "DR" := by
  have hinv : TypesDR (runLines ((splitLines (trimChars text.data)).map String.mk)) :=
    runLines_inv TypesDR step_typesDR (fun t h => nomatch h) _
  exact flush_typesDR _ hinv t ht

/-- Witness for C4 on the text of one dated debit transaction. -/
theorem allOutputs_type_DR_witness :
    ({ date := "01-02-2023", description := "A", amount := "", type := "DR" }
      : Transaction).type = "DR" :=
  allOutputs_type_DR "01-02-2023 A\nDR" _ (by decide)

/-- C5: whenever the accumulator is in the Open state the draft's type is
empty, so the end-of-input flush never adds a transaction. -/
theorem open_draft_type_empty_flush_dead (lines : List String) :
    ((runLines lines).inTransaction = true → (runLines lines).current.type = "") ∧
    extractTransactions lines = (runLines lines).transactions :=
  ⟨runLines_openTypeEmpty lines,
   flush_eq_of_openTypeEmpty _ (runLines_openTypeEmpty lines)⟩

/-- Witness for C5 on a line sequence that ends with an open draft. -/
theorem open_draft_type_empty_flush_dead_witness :
    (runLines ["01-02-2023 A"]).inTransaction = true ∧
    (runLines ["01-02-2023 A"]).current.type = "" ∧
    extractTransactions ["01-02-2023 A"] = (runLines ["01-02-2023 A"]).transactions :=
  ⟨by decide, (open_draft_type_empty_flush_dead ["01-02-2023 A"]).1 (by decide),
   (open_draft_type_empty_flush_dead ["01-02-2023 A"]).2⟩

/-- C6, counterexample: an empty line inside an open draft appends a space
to the description, so the emitted description carries trailing whitespace
and the output differs from the run without the empty line. -/
theorem description_trimmed_counterexample :
    extractTransactions ["01-02-2023 A", "", "DR"] =
      [{ date := "01-02-2023", description := "A ", amount := "", type := "DR" }] ∧
    extractTransactions ["01-02-2023 A", "DR"] =
      [{ date := "01-02-2023", description := "A", amount := "", type := "DR" }] := by
  constructor
  · decide
  · decide

/-- C6 (amended): only the DateLine's initial fragment is trimmed; a line
that normalizes to the empty string, processed while a draft is open,
appends exactly one space to the draft's description (so descriptions can
carry trailing or interior whitespace and the empty line is not a no-op). -/
theorem emptyLine_open_appends_space (st : AccState) (line : String)
    (hopen : st.inTransaction = true) (hnorm : normalizeLine line = "") :
    processLine st line =
      { st with current :=
          { st.current with description := st.current.description ++ " " } } := by
  have hd : matchesDateStart (normalizeLine line).data = false := by rw [hnorm]; rfl
  have ha : matchesAmount (normalizeLine line).data = false := by rw [hnorm]; rfl
  have htp : matchesType (normalizeLine line).data = false := by rw [hnorm]; rfl
  rw [processLine_cont_open st line hd ha htp hopen, hnorm,
    str_append_empty (st.current.description ++ " ")]

/-- Witness for C6 (amended): the empty line after an open dated draft. -/
theorem emptyLine_open_appends_space_witness :
    processLine (runLines ["01-02-2023 A"]) "" =
      { runLines ["01-02-2023 A"] with current :=
          { (runLines ["01-02-2023 A"]).current with
              description := (runLines ["01-02-2023 A"]).current.description ++ " " } } :=
  emptyLine_open_appends_space (runLines ["01-02-2023 A"]) "" (by decide) rfl

/-- C7: the five-line example emits exactly the two stated transactions in
order. -/
theorem example_two_transactions :
    extractTransactions
        ["01-02-2023 SHOP A", "DR", "02-02-2023 SHOP B", "20.00", "DR"] =
      [{ date := "01-02-2023", description := "SHOP A", amount := "", type := "DR" },
       { date := "02-02-2023", description := "SHOP B", amount := "20.00", type := "DR" }] := by
  decide

/-- C8: a failure of the text-extraction collaborator propagates to the
caller unchanged, and no (partial) transaction list is returned. -/
theorem extraction_error_propagates {ε : Type} (e : ε) :
    extractBankStatementData (Except.error e) = Except.error e ∧
    ∀ l : List Transaction, extractBankStatementData (Except.error e) ≠ Except.ok l :=
  ⟨rfl, fun _ h => Except.noConfusion h⟩

/-- Witness for C8 with a concrete error value. -/
theorem extraction_error_propagates_witness :
    extractBankStatementData (Except.error "corrupt PDF") =
      Except.error "corrupt PDF" :=
  (extraction_error_propagates "corrupt PDF").1

/-- C9: a DateLine always rebuilds the draft from scratch: date is the
normalized line's first 10 characters, description the trimmed remainder,
amount and type empty — nothing processed earlier carries over. -/
theorem dateLine_fresh_draft (st : AccState) (line : String)
    (hd : matchesDateStart (normalizeLine line).data = true) :
    (processLine st line).current =
      { date := String.mk ((normalizeLine line).data.take 10)
        description := String.mk (trimChars ((normalizeLine line).data.drop 10))
        amount := ""
        type := "" } ∧
    (processLine st line).inTransaction = true := by
  rw [processLine_date st line hd]
  exact ⟨rfl, rfl⟩

/-- Witness for C9: a date line after an idle amount token; the stale
amount does not reach the new draft. -/
theorem dateLine_fresh_draft_witness :
    (processLine (processLine initState "99.99") "01-02-2023 SHOP").current =
      { date := "01-02-2023", description := "SHOP", amount := "", type := "" } ∧
    (processLine (processLine initState "99.99") "01-02-2023 SHOP").inTransaction
      = true :=
  dateLine_fresh_draft (processLine initState "99.99") "01-02-2023 SHOP" rfl

/-- C10: the emit-on-interrupt branch of the DateLine transition is dead in
every reachable state: processing a date line never changes the output
list. -/
theorem dateLine_never_emits (lines : List String) (line : String)
    (hd : matchesDateStart (normalizeLine line).data = true) :
    (processLine (runLines lines) line).transactions
      = (runLines lines).transactions := by
  have hinv := runLines_openTypeEmpty lines
  rw [processLine_date _ _ hd]
  dsimp only
  have hcond :
      ((runLines lines).inTransaction && (runLines lines).current.type = "DR")
        = false := by
    cases hin : (runLines lines).inTransaction with
    | false => rw [Bool.false_and]
    | true =>
      rw [Bool.true_and, hinv hin]
      rfl
  rw [hcond]
  rfl

/-- Witness for C10: a date line interrupting an open draft. -/
theorem dateLine_never_emits_witness :
    (processLine (runLines ["01-02-2023 A"]) "02-02-2023 B").transactions
      = (runLines ["01-02-2023 A"]).transactions :=
  dateLine_never_emits ["01-02-2023 A"] "02-02-2023 B" rfl

end ExpenseTracker
